import Mathlib

/-!
# Verification of the DocMindAI hybrid retrieval / RAG engine core

A shallow embedding in Lean 4 of the core of `backend/advanced_rag.py`
(with the sibling embedding wrapper of `backend/rag_engine.py`):

* `AdvancedChunkingStrategy.semantic_split` / `_split_large_paragraph`
  (flat semantic chunker), embedded over `List Char`;
* chunk sanitization inside `AdvancedRAGEngine._process_documents`;
* the text sanitization of the two `CustomEmbeddings` wrappers;
* `HybridSearch`: `_tokenize`, `_build_bm25_index`, `_bm25_score`, `search`;
* `ReRanker.rerank`;
* `ConversationMemory` and the response cache of `AdvancedRAGEngine.ask`;
* `AdvancedRAGEngine.ask` itself, with the fallible collaborator calls
  (retrieval, re-ranking, generation) modelled as `Except`-valued oracles.

Scores are rationals (`ℚ`); Python dicts are order-preserving association
lists; Python's stable `list.sort(reverse=True)` is modelled by a stable
descending insertion sort (any stable descending sort computes the same
permutation).
-/

namespace DocMind

-- Rational arithmetic is `@[irreducible]` upstream; make it reducible here so
-- concrete score computations can be settled by `decide` (the kernel ignores
-- reducibility, so checked proofs are unaffected).
attribute [local semireducible] Rat.add Rat.mul Rat.sub Rat.inv

/-! ## Chunker: `AdvancedChunkingStrategy` (advanced_rag.py lines 26-78)

Text is `List Char`.  `pyStrip` is Python `str.strip()`. -/

/-- Python `str.strip()`: drop whitespace from both ends. -/
def pyStrip (s : List Char) : List Char :=
  ((s.dropWhile Char.isWhitespace).reverse.dropWhile Char.isWhitespace).reverse

/-- Python `str.strip()` at `String` level (same function as `pyStrip`,
through the character-list view of the string). -/
def pyTrim (s : String) : String := String.mk (pyStrip s.data)

/-- Python `str.lower()` at `String` level. -/
def pyLower (s : String) : String := String.mk (s.data.map Char.toLower)

/-- Python `text.split("\n\n")`: split on each non-overlapping occurrence of
a blank line, left to right, keeping empty pieces. -/
def paragraphSplit : List Char → List Char → List (List Char)
  | acc, '\n' :: '\n' :: rest => acc.reverse :: paragraphSplit [] rest
  | acc, c :: rest => paragraphSplit (c :: acc) rest
  | acc, [] => [acc.reverse]

/-- Sentence boundary test used by the regex `(?<=[.!?])\s+` in
`_split_large_paragraph`: the current char is `.`, `!` or `?` and the next
char is whitespace. -/
def isSentenceBreak (c : Char) (rest : List Char) : Bool :=
  (c = '.' || c = '!' || c = '?') &&
    (match rest with
     | c2 :: _ => c2.isWhitespace
     | [] => false)

/-- Embeds `re.split(r"(?<=[.!?])\s+", paragraph)`: cut after `.`/`!`/`?` and
consume the maximal following whitespace run. -/
def sentenceSplitAux : List Char → List Char → List (List Char)
  | acc, [] => [acc.reverse]
  | acc, c :: rest =>
    if isSentenceBreak c rest then
      (c :: acc).reverse :: sentenceSplitAux [] (rest.dropWhile Char.isWhitespace)
    else
      sentenceSplitAux (c :: acc) rest
  termination_by _ l => l.length
  decreasing_by
    · simp only [List.length_cons]
      exact Nat.lt_succ_of_le (List.dropWhile_sublist _).length_le
    · simp

def sentenceSplit (paragraph : List Char) : List (List Char) :=
  sentenceSplitAux [] paragraph

/-- Embeds `AdvancedChunkingStrategy._split_large_paragraph` (lines 60-78): the
accumulate loop over sentences. -/
def splitLargeParagraphLoop (chunkSize : Nat) :
    List (List Char) → List Char → List (List Char) → List (List Char)
  | chunks, cur, [] => if cur ≠ [] then chunks ++ [pyStrip cur] else chunks
  | chunks, cur, sent :: rest =>
    if cur.length + sent.length > chunkSize then
      let chunks := if cur ≠ [] then chunks ++ [pyStrip cur] else chunks
      splitLargeParagraphLoop chunkSize chunks sent rest
    else
      let cur := if cur ≠ [] then cur ++ [' '] ++ sent else sent
      splitLargeParagraphLoop chunkSize chunks cur rest

def splitLargeParagraph (chunkSize : Nat) (paragraph : List Char) : List (List Char) :=
  splitLargeParagraphLoop chunkSize [] [] (sentenceSplit paragraph)

/-- Embeds `AdvancedChunkingStrategy.semantic_split` (lines 33-58): the accumulate
loop over paragraphs, with overlap seeding on chunk emission. -/
def semanticSplitLoop (chunkSize chunkOverlap : Nat) :
    List (List Char) → List Char → List (List Char) → List (List Char)
  | chunks, cur, [] => if cur ≠ [] then chunks ++ [pyStrip cur] else chunks
  | chunks, cur, para :: rest =>
    if cur.length + para.length > chunkSize then
      if cur ≠ [] then
        let chunks := chunks ++ [pyStrip cur]
        -- current_chunk = current_chunk[overlap_start:] + "\n\n" + para
        let cur := cur.drop (cur.length - chunkOverlap) ++ ['\n', '\n'] ++ para
        semanticSplitLoop chunkSize chunkOverlap chunks cur rest
      else
        let chunks := chunks ++ splitLargeParagraph chunkSize para
        semanticSplitLoop chunkSize chunkOverlap chunks [] rest
    else
      let cur := if cur ≠ [] then cur ++ ['\n', '\n'] ++ para else para
      semanticSplitLoop chunkSize chunkOverlap chunks cur rest

def semanticSplit (chunkSize chunkOverlap : Nat) (text : List Char) : List (List Char) :=
  semanticSplitLoop chunkSize chunkOverlap [] [] (paragraphSplit [] text)

/-! ## Chunk sanitization: `AdvancedRAGEngine._process_documents`
(advanced_rag.py lines 514-538)

A chunk's `page_content` may be `None`, so a raw chunk is `Option String`.
The loop enumerates the raw chunk list, skips `None` contents and contents
shorter than 3 characters after trimming, and records the enumeration index
`i` as `chunk_id` on each surviving chunk. -/

/-- The `for i, chunk in enumerate(chunks)` sanitization loop, carrying the
running index.  A surviving chunk is `(trimmed content, chunk_id)`. -/
def sanitizeChunksAux : Nat → List (Option String) → List (String × Nat)
  | _, [] => []
  | i, c :: rest =>
    match c with
    | none => sanitizeChunksAux (i + 1) rest
    | some s =>
      let content := pyTrim s
      if content = "" ∨ content.length < 3 then sanitizeChunksAux (i + 1) rest
      else (content, i) :: sanitizeChunksAux (i + 1) rest

def sanitizeChunks (chunks : List (Option String)) : List (String × Nat) :=
  sanitizeChunksAux 0 chunks

/-- Declarative description of the same sanitization: keep exactly the valid
chunks, each tagged with its position in the original list. -/
def sanitizeChunksSpec (chunks : List (Option String)) : List (String × Nat) :=
  chunks.enum.filterMap fun ic =>
    match ic.2 with
    | none => none
    | some s =>
      let content := pyTrim s
      if content = "" ∨ content.length < 3 then none else some (content, ic.1)

/-! ## Embedding-input sanitization: the two `CustomEmbeddings` wrappers
(advanced_rag.py lines 436-467, rag_engine.py lines 25-64) -/

/-- The sanitization loop of `CustomEmbeddings.embed_documents` (identical in
both files): `None` appends `""` and continues; otherwise the text is
stripped and, if it became empty, replaced by the placeholder `"empty"`. -/
def sanitizeDocumentTexts (texts : List (Option String)) : List String :=
  texts.map fun t =>
    match t with
    | none => ""
    | some s =>
      let trimmed := pyTrim s
      if trimmed = "" then "empty" else trimmed

/-- Embeds `CustomEmbeddings.embed_query` of advanced_rag.py:
`str(text).strip() if text else "empty"` — a falsy input (`None` or `""`)
becomes `"empty"`; any other input is merely stripped. -/
def sanitizeQueryText (text : Option String) : String :=
  match text with
  | none => "empty"
  | some s => if s = "" then "empty" else pyTrim s

/-- Note `CustomEmbeddings.embed_query` of rag_engine.py passes the text to the
model unchanged (no sanitization). -/
def ragEngineQueryText (text : String) : String := text

/-! ## Response cache (`AdvancedRAGEngine.ask`, advanced_rag.py lines 580-585
and 643-645)

The cache is a Python dict `str → (answer, response_time_ms, source_count)`;
we model it as an order-preserving association list. -/

abbrev Response := String × Nat × Nat

abbrev Cache := List (String × Response)

/-- Dict insertion: overwrite the value at an existing key in place,
otherwise append. -/
def dictPut (c : Cache) (key : String) (v : Response) : Cache :=
  match c with
  | [] => [(key, v)]
  | (k, w) :: rest => if k = key then (k, v) :: rest else (k, w) :: dictPut rest key v

/-- Dict lookup. -/
def dictGet (c : Cache) (key : String) : Option Response :=
  match c with
  | [] => none
  | (k, v) :: rest => if k = key then some v else dictGet rest key

/-- Embeds `cache_key = f"{question}_{session_id}" if session_id else question`:
a falsy `session_id` (`None` or `""`) leaves the question alone. -/
def cacheKey (question : String) (sessionId : Option String) : String :=
  match sessionId with
  | some s => if s = "" then question else question ++ "_" ++ s
  | none => question

/-- Embeds `self.response_cache[cache_key] = result` for a (question, session) pair. -/
def cachePut (c : Cache) (question : String) (sessionId : Option String) (v : Response) : Cache :=
  dictPut c (cacheKey question sessionId) v

/-- Embeds `self.response_cache.get(cache_key)` for a (question, session) pair. -/
def cacheGet (c : Cache) (question : String) (sessionId : Option String) : Option Response :=
  dictGet c (cacheKey question sessionId)

/-! ## Sparse index: `HybridSearch` (advanced_rag.py lines 114-261)

The BM25 state holds the three mutable fields of `HybridSearch`:
`bm25_index` (dict doc_id → {text, terms, length}), `doc_frequencies`
(defaultdict term → count) and `total_docs`. -/

/-- One `bm25_index` entry. -/
structure DocEntry where
  text : String
  terms : List String
  length : Nat
deriving Repr, DecidableEq

structure BM25State where
  bm25Index : List (Nat × DocEntry)
  docFrequencies : List (String × Nat)
  totalDocs : Nat
deriving Repr, DecidableEq

/-- The fields as initialised in `HybridSearch.__init__` before
`_build_bm25_index` runs. -/
def initBM25State : BM25State := ⟨[], [], 0⟩

/-- Python word character for the regex `\w`. -/
def isWordChar (c : Char) : Bool := c.isAlphanum || c = '_'

/-- Maximal runs of word characters (`re.findall(r'\b\w+\b', text)`). -/
def wordRuns : List Char → List Char → List (List Char)
  | acc, [] => if acc ≠ [] then [acc.reverse] else []
  | acc, c :: rest =>
    if isWordChar c then wordRuns (c :: acc) rest
    else if acc ≠ [] then acc.reverse :: wordRuns [] rest
    else wordRuns [] rest

/-- Embeds `HybridSearch._tokenize` (lines 160-166): lowercase, then extract word
runs. -/
def tokenize (text : String) : List String :=
  (wordRuns [] (pyLower text).data).map fun cs => String.mk cs

/-- Embeds `self.doc_frequencies[term] += 1` on a `defaultdict(int)`: bump an
existing key in place, or append the key with count 1. -/
def dfBump (df : List (String × Nat)) (term : String) : List (String × Nat) :=
  match df with
  | [] => [(term, 1)]
  | (k, n) :: rest => if k = term then (k, n + 1) :: rest else (k, n) :: dfBump rest term

/-- Embeds `self.doc_frequencies.get(term, 0)`. -/
def dfGet (df : List (String × Nat)) (term : String) : Nat :=
  match df with
  | [] => 0
  | (k, n) :: rest => if k = term then n else dfGet rest term

/-- Embeds `self.bm25_index[doc_id] = \x7b...\x7d`: overwrite in place or append. -/
def idxPut (idx : List (Nat × DocEntry)) (docId : Nat) (e : DocEntry) : List (Nat × DocEntry) :=
  match idx with
  | [] => [(docId, e)]
  | (k, v) :: rest => if k = docId then (k, e) :: rest else (k, v) :: idxPut rest docId e

/-- The body of the `for doc_id, text in enumerate(documents)` loop of
`_build_bm25_index`: skip empty texts, bump `doc_frequencies` once per
distinct term of the document, store the index entry. -/
def indexDocument (st : BM25State) (docId : Nat) (text : String) : BM25State :=
  if text = "" then st
  else
    let terms := tokenize text
    { st with
      docFrequencies := terms.dedup.foldl dfBump st.docFrequencies
      bm25Index := idxPut st.bm25Index docId ⟨text, terms, terms.length⟩ }

/-- Embeds `HybridSearch._build_bm25_index` (lines 124-158) applied to the current
collection contents `documents`.  On an empty collection it returns early,
leaving every field as it was; otherwise it sets `total_docs` and runs the
indexing loop.  Note that neither `bm25_index` nor `doc_frequencies` is
cleared first. -/
def buildBM25Index (st : BM25State) (documents : List String) : BM25State :=
  if documents.isEmpty then st
  else
    let st := { st with totalDocs := documents.length }
    documents.enum.foldl (fun s p => indexDocument s p.1 p.2) st

/-- Number of currently indexed units whose term set contains `term` (the
quantity `df` is supposed to equal, per the spec's invariant). -/
def unitsContaining (st : BM25State) (term : String) : Nat :=
  (st.bm25Index.filter fun p => term ∈ p.2.terms).length

/-- BM25 constant `k1 = 1.5`. -/
def bm25K1 : ℚ := 3 / 2

/-- BM25 constant `b = 0.75`. -/
def bm25B : ℚ := 3 / 4

/-- Embeds `avg_doc_length = sum(doc["length"] for doc in self.bm25_index.values())
/ max(self.total_docs, 1)` (line 172). -/
def avgDocLength (st : BM25State) : ℚ :=
  (st.bm25Index.map fun p => (p.2.length : ℚ)).sum / (max st.totalDocs 1 : ℚ)

/-- One term's contribution inside the loop of `_bm25_score`
(lines 175-193). -/
def bm25TermScore (st : BM25State) (docTerms : List String) (docLength : Nat)
    (term : String) : ℚ :=
  if term ∉ docTerms then 0
  else
    let tf : ℚ := docTerms.count term
    let df := dfGet st.docFrequencies term
    if df = 0 then 0
    else
      let idf : ℚ := max 0 (((st.totalDocs : ℚ) - df + 1 / 2) / ((df : ℚ) + 1 / 2))
      let numerator := tf * (bm25K1 + 1)
      let denominator :=
        tf + bm25K1 * (1 - bm25B + bm25B * ((docLength : ℚ) / avgDocLength st))
      idf * (numerator / denominator)

/-- Embeds `HybridSearch._bm25_score` (lines 168-195): accumulate the term
contributions over the query terms. -/
def bm25Score (st : BM25State) (queryTerms docTerms : List String) (docLength : Nat) : ℚ :=
  queryTerms.foldl (fun acc term => acc + bm25TermScore st docTerms docLength term) 0

/-! ### `HybridSearch.search` (lines 197-261) -/

/-- Python dict assignment `d[key] = v` on a content-keyed score dict:
overwrite in place or append. -/
def qdictSet (d : List (String × ℚ)) (key : String) (v : ℚ) : List (String × ℚ) :=
  match d with
  | [] => [(key, v)]
  | (k, w) :: rest => if k = key then (k, v) :: rest else (k, w) :: qdictSet rest key v

/-- Embeds `if text in combined_scores: ... += delta` / `else: ... = delta`. -/
def qdictAdd (d : List (String × ℚ)) (key : String) (delta : ℚ) : List (String × ℚ) :=
  match d with
  | [] => [(key, delta)]
  | (k, w) :: rest => if k = key then (k, w + delta) :: rest else (k, w) :: qdictAdd rest key delta

/-- Embeds `max(scores, default=1.0)` — Python `max` with a default for the empty
list. -/
def pyMax (l : List ℚ) (default : ℚ) : ℚ :=
  match l with
  | [] => default
  | x :: xs => xs.foldl max x

/-- Embeds `score / m if m > 0 else 0` — the normalization step of `search`
(lines 235 and 243). -/
def normalizeBy (m score : ℚ) : ℚ := if 0 < m then score / m else 0

/-- Stable insertion of `x` into a descending-sorted list: `x` goes after
every earlier element whose key is ≥ its own. -/
def insertDescBy {α : Type} (key : α → ℚ) (x : α) : List α → List α
  | [] => [x]
  | y :: ys => if key y < key x then x :: y :: ys else y :: insertDescBy key x ys

/-- Stable descending sort by `key`, modelling Python's stable
`list.sort(key=..., reverse=True)` / `sorted(..., reverse=True)` (any stable
descending sort computes the same permutation as Python's). -/
def sortByDesc {α : Type} (key : α → ℚ) (l : List α) : List α :=
  l.foldl (fun acc x => insertDescBy key x acc) []

/-- The dense candidates, deduplicated by page content exactly as the dict
comprehension `{doc.page_content: (doc, score) for doc, score in
dense_results}` does: first occurrence keeps its position, a later duplicate
overwrites the stored score. -/
def denseDocsDict (denseResults : List (String × ℚ)) : List (String × ℚ) :=
  denseResults.foldl (fun d p => qdictSet d p.1 p.2) []

/-- The BM25 candidate triples `(doc_id, score, text)` with positive score,
in index iteration order (lines 216-221). -/
def bm25Candidates (st : BM25State) (queryTerms : List String) : List (Nat × ℚ × String) :=
  st.bm25Index.filterMap fun p =>
    let score := bm25Score st queryTerms p.2.terms p.2.length
    if 0 < score then some (p.1, score, p.2.text) else none

/-- Embeds `HybridSearch.search`: the dense candidates are the collaborator's
output `denseResults` (the `(page_content, score)` pairs returned by
`similarity_search_with_score(query, k=k*2)`, in the order the vector store
ranked them; an exception in the dense search corresponds to
`denseResults = []`).  Returns the fused `(content, combined_score)` list. -/
def hybridSearch (st : BM25State) (denseResults : List (String × ℚ)) (query : String)
    (k : Nat) (alpha : ℚ) : List (String × ℚ) :=
  let denseDocs := denseDocsDict denseResults
  let queryTerms := tokenize query
  let bm25Sorted := sortByDesc (fun t => t.2.1) (bm25Candidates st queryTerms)
  let maxDense := pyMax (denseDocs.map Prod.snd) 1
  let maxBM25 := pyMax (bm25Sorted.map fun t => t.2.1) 1
  -- Add dense results
  let combined := denseDocs.foldl
    (fun cs p => qdictSet cs p.1 (alpha * normalizeBy maxDense p.2)) []
  -- Add BM25 results (top 2k only)
  let combined := (bm25Sorted.take (k * 2)).foldl
    (fun cs t => qdictAdd cs t.2.2 ((1 - alpha) * normalizeBy maxBM25 t.2.1)) combined
  (sortByDesc Prod.snd combined).take k

/-! ## Re-ranker: `ReRanker.rerank` (advanced_rag.py lines 294-325)

The cross-encoder is `none` when model loading failed in `__init__`;
otherwise it is a scoring function that may itself fail (the `try` body). -/

abbrev CrossEncoderModel := Option (String → List String → Except String (List ℚ))

def rerank (model : CrossEncoderModel) (query : String) (documents : List String)
    (topK : Nat) : List String :=
  match model with
  | none => documents.take topK
  | some predict =>
    if documents.isEmpty then documents.take topK
    else
      match predict query documents with
      | .error _ => documents.take topK
      | .ok scores =>
        let docScores := documents.zip scores
        ((sortByDesc Prod.snd docScores).map Prod.fst).take topK

/-! ## Conversation memory: `ConversationMemory` (advanced_rag.py lines
328-362), with `max_history = 5`. -/

abbrev Turn := String × String

abbrev Sessions := List (String × List Turn)

def maxHistory : Nat := 5

def sessionsGet (m : Sessions) (sid : String) : List Turn :=
  match m with
  | [] => []
  | (k, v) :: rest => if k = sid then v else sessionsGet rest sid

def sessionsSet (m : Sessions) (sid : String) (h : List Turn) : Sessions :=
  match m with
  | [] => [(sid, h)]
  | (k, v) :: rest => if k = sid then (k, h) :: rest else (k, v) :: sessionsSet rest sid h

/-- Embeds `ConversationMemory.add_turn`: append, then keep only the last
`max_history` turns. -/
def addTurn (m : Sessions) (sid : String) (userMsg botMsg : String) : Sessions :=
  let h := sessionsGet m sid ++ [(userMsg, botMsg)]
  let h := if h.length > maxHistory then h.drop (h.length - maxHistory) else h
  sessionsSet m sid h

/-- Embeds `ConversationMemory.get_context`: render at most the last 3 turns. -/
def getContext (m : Sessions) (sid : String) : String :=
  let history := sessionsGet m sid
  if history = [] then ""
  else
    String.intercalate "\n"
      ((history.drop (history.length - 3)).flatMap fun t =>
        ["User: " ++ t.1, "Assistant: " ++ t.2])

/-! ## Answer orchestrator: `AdvancedRAGEngine.ask` (advanced_rag.py lines
565-658)

The fallible collaborator calls inside the `try` block — document retrieval
(hybrid or plain dense), re-ranking and LLM generation — are modelled as
`Except`-valued oracles, so the theorems quantify over every behaviour of
those collaborators, including raising.  Time is modelled by the two clock
readings the code takes: `t0` at entry (`start_time`) and `t1` at the single
later `time.time()` call of whichever path is taken. -/

structure EngineState where
  responseCache : Cache
  sessions : Sessions
deriving Repr, DecidableEq

structure Collab where
  /-- Outcome of `hybrid_search.search(question, k=10)` /
  `vector_store.similarity_search(question, k=10)` as a document list. -/
  retrieve : Except String (List String)
  /-- Outcome of `reranker.rerank(question, docs, top_k=5)`. -/
  rerankDocs : List String → Except String (List String)
  /-- Outcome of `llm.invoke(prompt)` run in a worker thread. -/
  generate : String → Except String String
  /-- Embeds `self.use_reranking and self.reranker` -/
  useReranking : Bool

def defaultSystemPrompt : String :=
  "You are a helpful, friendly customer support assistant for this business.\n" ++
  "Answer the question using ONLY the provided context below.\n" ++
  "If the answer is not in the context, politely say \x22I don't have that " ++
  "information. Please contact us directly.\x22\n\n" ++
  "Be professional, concise, and helpful. Answer in the same language as the question."

/-- The f-string prompt template of `ask` (lines 618-628). -/
def buildPrompt (systemPrompt : Option String) (contextHistory context question : String) :
    String :=
  (systemPrompt.getD defaultSystemPrompt) ++ "\n\n" ++
  (if contextHistory ≠ "" then "Previous conversation:" else "") ++ "\n" ++
  contextHistory ++ "\n\nContext:\n" ++ context ++ "\n\nQuestion: " ++ question ++
  "\n\nAnswer:"

/-- The fixed apology emitted by the `except` handler of `ask`
(lines 654-657). -/
def apologyMessage : String :=
  "I apologize, I'm having trouble right now. Please try again or contact us directly."

/-- The body of the `try` block of `ask` (lines 587-634): conversation
context, retrieval, re-ranking (or plain truncation to 5), prompt assembly
and generation.  Returns the cleaned answer and the source count
`len(docs)`. -/
def askTry (st : EngineState) (c : Collab) (question : String) (sessionId : Option String)
    (useContext : Bool) (systemPrompt : Option String) : Except String (String × Nat) := do
  let contextHistory :=
    match sessionId with
    | some s => if s ≠ "" && useContext then getContext st.sessions s else ""
    | none => ""
  let docs ← c.retrieve
  let docs ← if c.useReranking && !docs.isEmpty then c.rerankDocs docs else pure (docs.take 5)
  let context := String.intercalate "\n\n" docs
  let prompt := buildPrompt systemPrompt contextHistory context question
  let answer ← c.generate prompt
  return (pyTrim answer, docs.length)

/-- Embeds `AdvancedRAGEngine.ask`: cache check first; on a hit the cached triple
is returned as-is.  On a miss the `try` body runs: success updates memory,
caches and returns `(answer, t1 - t0, source_count)`; any exception is
caught and degraded to the fixed apology with the elapsed time of the
failure path and a source count of 0. -/
def ask (st : EngineState) (c : Collab) (question : String) (sessionId : Option String)
    (useContext : Bool) (systemPrompt : Option String) (t0 t1 : Nat) :
    Response × EngineState :=
  match cacheGet st.responseCache question sessionId with
  | some cached => (cached, st)
  | none =>
    match askTry st c question sessionId useContext systemPrompt with
    | .ok (answer, sourceCount) =>
      let responseTime := t1 - t0
      let st' :=
        match sessionId with
        | some s =>
          if s = "" then st
          else { st with sessions := addTurn st.sessions s question answer }
        | none => st
      let result : Response := (answer, responseTime, sourceCount)
      (result, { st' with responseCache := cachePut st'.responseCache question sessionId result })
    | .error _ => ((apologyMessage, t1 - t0, 0), st)

/-! ## Theorems -/

/-! ### C4 — flat splitter on two paragraphs of 400 and 900 characters -/

/-- The C4 scenario document: a 400-character paragraph and a 900-character
paragraph separated by a blank line. -/
def c4Text : List Char := List.replicate 400 'a' ++ ['\n', '\n'] ++ List.replicate 900 'b'

set_option maxRecDepth 100000 in
/-- C4 counterexample: with `chunk_size = 1000` (and the default
`chunk_overlap = 200`) the flat semantic splitter does *not* emit exactly one
chunk on the two-paragraph 400/900 document — 400 + 900 exceeds 1000, so the
second paragraph triggers an emission. -/
theorem c4_not_one_chunk : (semanticSplit 1000 200 c4Text).length ≠ 1 := by
  decide

set_option maxRecDepth 100000 in
/-- C4 amended: the flat splitter with `chunk_size = 1000`,
`chunk_overlap = 200` splits the 400/900 two-paragraph document into exactly
two chunks: the first paragraph alone, and then the last 200 characters of
the first paragraph, a blank line, and the second paragraph. -/
theorem c4_two_chunks :
    semanticSplit 1000 200 c4Text =
      [List.replicate 400 'a',
       List.replicate 200 'a' ++ ['\n', '\n'] ++ List.replicate 900 'b'] := by
  decide

/-! ### C5 — chunk indices after sanitization -/

/-- The C5 example chunk list: the middle chunk is dropped by sanitization
(empty after trimming). -/
def c5Chunks : List (Option String) := [some "valid one", some "", some "second ok"]

/-- C5 counterexample: after sanitization drops the middle chunk, the
recorded chunk indices are `[0, 2]`, not the dense `[0, 1]` the claim
demands: the surviving indices are *not* `0, 1, ..., len-1`. -/
theorem c5_indices_not_dense :
    ¬ ((sanitizeChunks c5Chunks).map Prod.snd =
        List.range (sanitizeChunks c5Chunks).length) := by
  decide

theorem sanitizeChunksAux_eq_enumFrom (chunks : List (Option String)) :
    ∀ i : Nat,
      sanitizeChunksAux i chunks = (chunks.enumFrom i).filterMap fun ic =>
        match ic.2 with
        | none => none
        | some s =>
          let content := pyTrim s
          if content = "" ∨ content.length < 3 then none else some (content, ic.1) := by
  induction chunks with
  | nil => intro i; rfl
  | cons c rest ih =>
    intro i
    cases c with
    | none =>
      simpa [sanitizeChunksAux, List.filterMap_cons] using ih (i + 1)
    | some s =>
      by_cases h : pyTrim s = "" ∨ (pyTrim s).length < 3 <;>
        simp [sanitizeChunksAux, List.filterMap_cons, h, ih (i + 1)]

/-- C5 amended: the `chunk_id` recorded on each surviving chunk is the
chunk's position in the *original* pre-sanitization chunk list (the
`enumerate` index), so dropped chunks leave gaps in the recorded indices;
the indices are not reassigned densely. -/
theorem c5_chunk_id_is_original_position :
    ∀ chunks : List (Option String), sanitizeChunks chunks = sanitizeChunksSpec chunks := by
  intro chunks
  simpa [sanitizeChunks, sanitizeChunksSpec, List.enum_eq_enumFrom] using
    sanitizeChunksAux_eq_enumFrom chunks 0

/-- Closed instance of `c5_chunk_id_is_original_position` at the example
chunk list, with the definitions evaluated. -/
theorem c5_chunk_id_is_original_position_witness :
    sanitizeChunks c5Chunks = sanitizeChunksSpec c5Chunks := by
  exact c5_chunk_id_is_original_position c5Chunks

/-! ### C6 — embedding-input sanitization -/

/-- C6: the sanitization does **not** always substitute the placeholder
`"empty"`.  A `None` entry of `embed_documents` is forwarded to the model as
the empty string (the `continue` skips the placeholder check), and a
whitespace-only `embed_query` input of advanced_rag.py is stripped to the
empty string (only falsy inputs get the placeholder); rag_engine.py's
`embed_query` passes its input through unsanitized.  So the model *is*
called on degenerate strings. -/
theorem c6_sanitization_misses_none_and_whitespace :
    sanitizeDocumentTexts [none] = [""] ∧
    sanitizeQueryText (some " ") = "" ∧
    ragEngineQueryText "" = "" ∧
    ("" : String) ≠ "empty" := by
  refine ⟨rfl, by decide, rfl, by decide⟩

/-! ### C2 — document frequencies across rebuilds -/

/-- C2: `_build_bm25_index` never clears `doc_frequencies`, so a rebuild
*merges* term statistics instead of replacing them.  Building the index
twice over the same one-document collection (`"alpha beta"` — as happens at
engine construction and again after an ingestion-triggered rebuild) leaves
`doc_frequencies["alpha"] = 2` although exactly one indexed unit contains
the term, violating the claimed invariant `df(t) = #{units containing t}`. -/
theorem c2_rebuild_merges_doc_frequencies :
    dfGet (buildBM25Index (buildBM25Index initBM25State ["alpha beta"])
      ["alpha beta"]).docFrequencies "alpha" = 2 ∧
    unitsContaining (buildBM25Index (buildBM25Index initBM25State ["alpha beta"])
      ["alpha beta"]) "alpha" = 1 := by
  decide

/-! ### C1 — hybrid search at `alpha = 1` versus the dense ranking -/

/-- The dense collaborator's output in the C1 scenario: the vector store
ranks `"A"` first (distance 0.1) and `"B"` second (distance 0.9). -/
def c1Dense : List (String × ℚ) := [("A", 1 / 10), ("B", 9 / 10)]

/-- C1: with `alpha = 1` (and an empty sparse index, so fusion adds
nothing), `HybridSearch.search` returns `["B", "A"]` — the *reverse* of the
dense ranking `["A", "B"]` — because it sorts the normalized raw scores
descending while the dense score returned by
`similarity_search_with_score` is a distance (smaller = more similar).  The
two fused scores `1` and `1/9` are not tied, so this is not a tie-breaking
artefact. -/
theorem c1_alpha_one_reverses_dense_ranking :
    (hybridSearch initBM25State c1Dense "q" 10 1).map Prod.fst = ["B", "A"] ∧
    c1Dense.map Prod.fst = ["A", "B"] ∧
    (hybridSearch initBM25State c1Dense "q" 10 1).map Prod.snd = [1, 1 / 9] := by
  refine ⟨by decide, by decide, by decide⟩

/-! ### C7 — response-cache round trip and key collisions -/

theorem dictGet_dictPut_self (c : Cache) (key : String) (v : Response) :
    dictGet (dictPut c key v) key = some v := by
  induction c with
  | nil => simp [dictPut, dictGet]
  | cons kv rest ih =>
    obtain ⟨k, w⟩ := kv
    by_cases h : k = key
    · simp [dictPut, dictGet, h]
    · simp [dictPut, dictGet, h, ih]

theorem dictGet_dictPut_ne (c : Cache) (key key' : String) (v : Response)
    (h : key' ≠ key) : dictGet (dictPut c key v) key' = dictGet c key' := by
  induction c with
  | nil => simp [dictPut, dictGet, Ne.symm h]
  | cons kv rest ih =>
    obtain ⟨k, w⟩ := kv
    by_cases hk : k = key
    · subst hk
      simp [dictPut, dictGet, Ne.symm h]
    · simp [dictPut, dictGet, hk, ih]

/-- C7 counterexample: the cache key is the underscore-concatenation
`f"{question}_{session_id}"`, which is not injective on (question, session)
pairs.  After storing a response for `("a", "b_c")`, a lookup for the
never-stored pair `("a_b", "c")` is a *hit*, refuting "a lookup for any
(question, session id) pair that was never stored is a cache miss". -/
theorem c7_key_collision_counterexample :
    cacheGet (cachePut [] "a" (some "b_c") ("ans", 5, 1)) "a_b" (some "c")
      = some ("ans", 5, 1) ∧
    ("a_b", (some "c" : Option String)) ≠ ("a", some "b_c") := by
  exact ⟨by decide, by decide⟩

/-- C7 amended: `put(q, s, r)` followed by `get(q, s)` returns exactly `r`,
and a lookup misses whenever its concatenated key differs from every stored
key (in particular on an empty cache); but because the key is the literal
string `question + "_" + session_id`, distinct pairs whose concatenations
collide (such as `("a_b", "c")` and `("a", "b_c")`) share one cache entry,
so "never stored ⇒ miss" holds only up to key collisions. -/
theorem c7_cache_roundtrip_up_to_key_collision :
    (∀ (c : Cache) (q : String) (sid : Option String) (r : Response),
        cacheGet (cachePut c q sid r) q sid = some r)
  ∧ (∀ (c : Cache) (q q' : String) (sid sid' : Option String) (r : Response),
        cacheKey q' sid' ≠ cacheKey q sid →
        cacheGet (cachePut c q sid r) q' sid' = cacheGet c q' sid')
  ∧ (∀ (q : String) (sid : Option String), cacheGet ([] : Cache) q sid = none) := by
  refine ⟨?_, ?_, ?_⟩
  · intro c q sid r
    exact dictGet_dictPut_self c (cacheKey q sid) r
  · intro c q q' sid sid' r h
    exact dictGet_dictPut_ne c (cacheKey q sid) (cacheKey q' sid') r h
  · intro q sid
    rfl

/-- Closed instance of the cache round trip and of a genuine miss. -/
theorem c7_cache_roundtrip_witness :
    cacheGet (cachePut [] "hi" (some "s1") ("ans", 12, 3)) "hi" (some "s1")
      = some ("ans", 12, 3) ∧
    cacheGet (cachePut [] "hi" (some "s1") ("ans", 12, 3)) "bye" (some "s1") = none := by
  constructor
  · exact c7_cache_roundtrip_up_to_key_collision.1 [] "hi" (some "s1") ("ans", 12, 3)
  · exact (c7_cache_roundtrip_up_to_key_collision.2.1 [] "hi" "bye" (some "s1") (some "s1")
      ("ans", 12, 3) (by decide)).trans rfl

/-! ### C9 — re-ranker fallback -/

/-- C9: if the cross-encoder failed to load (`model = none`) or scoring
raises, `rerank` returns the first `top_k` candidates in their original
order; it is a total function, so no exception propagates. -/
theorem c9_rerank_fallback :
    (∀ (q : String) (docs : List String) (topK : Nat),
        rerank none q docs topK = docs.take topK)
  ∧ (∀ (q : String) (docs : List String) (topK : Nat)
        (predict : String → List String → Except String (List ℚ)) (e : String),
        predict q docs = .error e →
        rerank (some predict) q docs topK = docs.take topK) := by
  constructor
  · intro q docs topK
    rfl
  · intro q docs topK predict e h
    unfold rerank
    by_cases hd : docs.isEmpty <;> simp [hd, h]

/-- Closed instance: an unavailable model and an erroring model both return
the first 5 candidates unreordered. -/
theorem c9_rerank_fallback_witness :
    rerank (some fun _ _ => .error "model unavailable") "q"
        ["d1", "d2", "d3", "d4", "d5", "d6"] 5 = ["d1", "d2", "d3", "d4", "d5"] ∧
    rerank none "q" ["d1", "d2", "d3", "d4", "d5", "d6"] 5
      = ["d1", "d2", "d3", "d4", "d5"] := by
  constructor
  · exact (c9_rerank_fallback.2 "q" ["d1", "d2", "d3", "d4", "d5", "d6"] 5
      (fun _ _ => .error "model unavailable") "model unavailable" rfl).trans (by decide)
  · exact (c9_rerank_fallback.1 "q" ["d1", "d2", "d3", "d4", "d5", "d6"] 5).trans (by decide)

/-! ### C3 — `ask` never raises; failures degrade to the apology triple -/

/-- C3: for every engine state, every behaviour of the retrieval,
re-ranking and generation collaborators (including raising, modelled as
`Except.error`), and every pair of clock readings, `ask` returns a triple
`(answer, response_time_ms, source_count)`; and whenever the cache misses
and any stage of the `try` body fails, the result is exactly the fixed
apology string, the elapsed time `t1 - t0` measured through the failure
path, and a source count of 0, with the engine state unchanged. -/
theorem c3_ask_never_raises :
    ∀ (st : EngineState) (c : Collab) (q : String) (sid : Option String)
      (uc : Bool) (sp : Option String) (t0 t1 : Nat),
      (∃ r st', ask st c q sid uc sp t0 t1 = (r, st'))
      ∧ (cacheGet st.responseCache q sid = none →
          ∀ e, askTry st c q sid uc sp = .error e →
            ask st c q sid uc sp t0 t1 = ((apologyMessage, t1 - t0, 0), st)) := by
  intro st c q sid uc sp t0 t1
  refine ⟨⟨_, _, rfl⟩, ?_⟩
  intro hmiss e herr
  unfold ask
  rw [hmiss, herr]

/-- Closed instance: a failing retrieval collaborator on an empty-cache
engine yields the apology, the elapsed time 15 ms, and 0 sources. -/
theorem c3_ask_never_raises_witness :
    ask ⟨[], []⟩ ⟨.error "vector store down", fun d => .ok d, fun _ => .ok "x", true⟩
        "q" none true none 10 25 = ((apologyMessage, 15, 0), ⟨[], []⟩) := by
  exact (c3_ask_never_raises ⟨[], []⟩
    ⟨.error "vector store down", fun d => .ok d, fun _ => .ok "x", true⟩
    "q" none true none 10 25).2 rfl "vector store down" rfl

/-! ### C10 — a cache hit returns the stored timing, not the current one -/

/-- C10: when `ask` hits the response cache, the cached triple is returned
as-is — in particular `response_time_ms` is the stored value, independent of
the current request's clock readings `t0`, `t1` — and the state is
unchanged. -/
theorem c10_cache_hit_returns_stored_response :
    ∀ (st : EngineState) (c : Collab) (q : String) (sid : Option String)
      (uc : Bool) (sp : Option String) (t0 t1 : Nat) (r : Response),
      cacheGet st.responseCache q sid = some r →
      ask st c q sid uc sp t0 t1 = (r, st) := by
  intro st c q sid uc sp t0 t1 r h
  unfold ask
  rw [h]

/-- Closed instance: the stored 7 ms is returned even though the current
request's clocks say 899 ms. -/
theorem c10_cache_hit_witness :
    ask ⟨[("q", ("cached answer", 7, 2))], []⟩
        ⟨.ok [], fun d => .ok d, fun _ => .ok "fresh", false⟩ "q" none true none 100 999
      = (("cached answer", 7, 2), ⟨[("q", ("cached answer", 7, 2))], []⟩) := by
  exact c10_cache_hit_returns_stored_response _ _ "q" none true none 100 999
    ("cached answer", 7, 2) rfl

/-! ### C8 — score normalization is safe and lands in [0, 1] -/

theorem le_foldl_max (xs : List ℚ) : ∀ a : ℚ, a ≤ xs.foldl max a := by
  induction xs with
  | nil => intro a; simp
  | cons x xs ih =>
    intro a
    simpa using le_trans (le_max_left a x) (ih (max a x))

theorem mem_le_foldl_max (xs : List ℚ) : ∀ a s : ℚ, s ∈ xs → s ≤ xs.foldl max a := by
  induction xs with
  | nil => intro a s h; cases h
  | cons x xs ih =>
    intro a s h
    rcases List.mem_cons.mp h with rfl | h
    · simpa using le_trans (le_max_right a s) (le_foldl_max xs (max a s))
    · simpa using ih (max a x) s h

theorem mem_le_pyMax {s : ℚ} (l : List ℚ) (d : ℚ) (h : s ∈ l) : s ≤ pyMax l d := by
  cases l with
  | nil => cases h
  | cons x xs =>
    rcases List.mem_cons.mp h with rfl | h
    · exact le_foldl_max xs s
    · exact mem_le_foldl_max xs x s h

theorem normalizeBy_mem_unitInterval {m s : ℚ} (hs : 0 ≤ s) (hm : s ≤ m) :
    0 ≤ normalizeBy m s ∧ normalizeBy m s ≤ 1 := by
  unfold normalizeBy
  split
  · next h => exact ⟨div_nonneg hs (le_of_lt h), (div_le_one h).mpr hm⟩
  · exact ⟨le_refl 0, zero_le_one⟩

theorem mem_qdictSet {p : String × ℚ} (d : List (String × ℚ)) (k : String) (v : ℚ)
    (h : p ∈ qdictSet d k v) : p = (k, v) ∨ p ∈ d := by
  induction d with
  | nil =>
    simp only [qdictSet, List.mem_singleton] at h
    exact Or.inl h
  | cons kw rest ih =>
    obtain ⟨k', w⟩ := kw
    simp only [qdictSet] at h
    split at h
    · next hk =>
      subst hk
      rcases List.mem_cons.mp h with rfl | h
      · exact Or.inl rfl
      · exact Or.inr (List.mem_cons_of_mem _ h)
    · rcases List.mem_cons.mp h with rfl | h
      · exact Or.inr (List.mem_cons_self _ _)
      · rcases ih h with h' | h'
        · exact Or.inl h'
        · exact Or.inr (List.mem_cons_of_mem _ h')

theorem foldl_qdictSet_scores (P : ℚ → Prop) (dense : List (String × ℚ)) :
    ∀ acc : List (String × ℚ),
      (∀ p ∈ dense, P p.2) → (∀ p ∈ acc, P p.2) →
      ∀ p ∈ dense.foldl (fun d q => qdictSet d q.1 q.2) acc, P p.2 := by
  induction dense with
  | nil =>
    intro acc _ hacc p hp
    exact hacc p hp
  | cons q rest ih =>
    intro acc hd hacc p hp
    simp only [List.foldl_cons] at hp
    refine ih _ (fun r hr => hd r (List.mem_cons_of_mem _ hr)) ?_ p hp
    intro r hr
    rcases mem_qdictSet _ _ _ hr with rfl | hr
    · exact hd q (List.mem_cons_self _ _)
    · exact hacc r hr

/-- Every score stored by the dense dict comprehension comes from the dense
result list, so it inherits nonnegativity. -/
theorem denseDocsDict_score_nonneg (dense : List (String × ℚ))
    (hd : ∀ p ∈ dense, 0 ≤ p.2) : ∀ p ∈ denseDocsDict dense, 0 ≤ p.2 := by
  intro p hp
  exact foldl_qdictSet_scores (0 ≤ ·) dense [] hd (by simp) p hp

theorem avgDocLength_nonneg (st : BM25State) : 0 ≤ avgDocLength st := by
  unfold avgDocLength
  refine div_nonneg (List.sum_nonneg ?_) (le_trans zero_le_one (le_max_right _ _))
  intro x hx
  rcases List.mem_map.mp hx with ⟨p, _, rfl⟩
  exact Nat.cast_nonneg _

theorem bm25TermScore_nonneg (st : BM25State) (docTerms : List String) (docLength : Nat)
    (term : String) : 0 ≤ bm25TermScore st docTerms docLength term := by
  unfold bm25TermScore
  split
  · exact le_refl 0
  · dsimp only
    split
    · exact le_refl 0
    · have hx : (0 : ℚ) ≤ (docLength : ℚ) / avgDocLength st :=
        div_nonneg (Nat.cast_nonneg _) (avgDocLength_nonneg st)
      have hfactor : (0 : ℚ) ≤ 1 - bm25B + bm25B * ((docLength : ℚ) / avgDocLength st) := by
        have h1 : (0 : ℚ) ≤ 1 - bm25B := by norm_num [bm25B]
        have h2 : (0 : ℚ) ≤ bm25B * ((docLength : ℚ) / avgDocLength st) :=
          mul_nonneg (by norm_num [bm25B]) hx
        linarith
      refine mul_nonneg (le_max_left 0 _) (div_nonneg ?_ ?_)
      · exact mul_nonneg (Nat.cast_nonneg _) (by norm_num [bm25K1])
      · exact add_nonneg (Nat.cast_nonneg _) (mul_nonneg (by norm_num [bm25K1]) hfactor)

theorem bm25Score_nonneg (st : BM25State) (queryTerms docTerms : List String)
    (docLength : Nat) : 0 ≤ bm25Score st queryTerms docTerms docLength := by
  unfold bm25Score
  have key : ∀ (ts : List String) (acc : ℚ), 0 ≤ acc →
      0 ≤ ts.foldl (fun acc term => acc + bm25TermScore st docTerms docLength term) acc := by
    intro ts
    induction ts with
    | nil => intro acc h; simpa using h
    | cons t ts ih =>
      intro acc h
      simp only [List.foldl_cons]
      exact ih _ (add_nonneg h (bm25TermScore_nonneg st docTerms docLength t))
  exact key queryTerms 0 le_rfl

/-- Every BM25 candidate kept by the `if score > 0` filter has a positive
score. -/
theorem bm25Candidates_pos (st : BM25State) (queryTerms : List String) :
    ∀ t ∈ bm25Candidates st queryTerms, 0 < t.2.1 := by
  intro t ht
  simp only [bm25Candidates, List.mem_filterMap] at ht
  obtain ⟨p, _, hp⟩ := ht
  split at hp
  · next h =>
    cases hp
    exact h
  · cases hp

theorem mem_insertDescBy {α : Type} (key : α → ℚ) (x y : α) :
    ∀ l : List α, y ∈ insertDescBy key x l ↔ y = x ∨ y ∈ l := by
  intro l
  induction l with
  | nil => simp [insertDescBy]
  | cons z zs ih =>
    unfold insertDescBy
    split
    · simp [List.mem_cons]
    · simp only [List.mem_cons, ih]
      tauto

theorem mem_sortByDesc {α : Type} (key : α → ℚ) (l : List α) (y : α) :
    y ∈ sortByDesc key l ↔ y ∈ l := by
  suffices h : ∀ l acc : List α,
      y ∈ l.foldl (fun a x => insertDescBy key x a) acc ↔ y ∈ l ∨ y ∈ acc by
    simpa [sortByDesc] using h l []
  intro l
  induction l with
  | nil => intro acc; simp
  | cons x xs ih =>
    intro acc
    simp only [List.foldl_cons, ih, mem_insertDescBy, List.mem_cons]
    tauto

/-- C8: the normalization inside `HybridSearch.search` is division-free of
hazards: (i) every dense candidate score — nonnegative, as Chroma distances
are — normalized by the dense maximum lies in `[0, 1]`; (ii) every BM25
candidate score normalized by the BM25 maximum lies in `[0, 1]`
unconditionally (kept scores are positive by construction); and (iii)
whenever the maximum is not positive — an empty candidate set's default, or
an all-zero set — the guarded normalization returns 0 instead of dividing,
so no division by zero ever occurs. -/
theorem c8_normalization_safe :
    (∀ dense : List (String × ℚ),
        (∀ p ∈ dense, 0 ≤ p.2) →
        ∀ p ∈ denseDocsDict dense,
          0 ≤ normalizeBy (pyMax ((denseDocsDict dense).map Prod.snd) 1) p.2 ∧
          normalizeBy (pyMax ((denseDocsDict dense).map Prod.snd) 1) p.2 ≤ 1)
  ∧ (∀ (st : BM25State) (queryTerms : List String),
        ∀ t ∈ sortByDesc (fun t => t.2.1) (bm25Candidates st queryTerms),
          0 ≤ normalizeBy
              (pyMax ((sortByDesc (fun t => t.2.1) (bm25Candidates st queryTerms)).map
                (fun t => t.2.1)) 1) t.2.1 ∧
          normalizeBy
              (pyMax ((sortByDesc (fun t => t.2.1) (bm25Candidates st queryTerms)).map
                (fun t => t.2.1)) 1) t.2.1 ≤ 1)
  ∧ (∀ m s : ℚ, ¬ 0 < m → normalizeBy m s = 0) := by
  refine ⟨?_, ?_, ?_⟩
  · intro dense hd p hp
    have hps : 0 ≤ p.2 := denseDocsDict_score_nonneg dense hd p hp
    have hmem : p.2 ∈ (denseDocsDict dense).map Prod.snd := List.mem_map_of_mem _ hp
    exact normalizeBy_mem_unitInterval hps (mem_le_pyMax _ 1 hmem)
  · intro st queryTerms t ht
    have ht' : t ∈ bm25Candidates st queryTerms := (mem_sortByDesc _ _ _).mp ht
    have hpos : 0 < t.2.1 := bm25Candidates_pos st queryTerms t ht'
    have hmem : t.2.1 ∈ (sortByDesc (fun t => t.2.1) (bm25Candidates st queryTerms)).map
        (fun t => t.2.1) := List.mem_map_of_mem _ ht
    exact normalizeBy_mem_unitInterval (le_of_lt hpos) (mem_le_pyMax _ 1 hmem)
  · intro m s h
    unfold normalizeBy
    simp [h]

/-- Closed instance: normalizing the dense set `{A ↦ 2, B ↦ 0}` keeps the
score of `A` in `[0, 1]`, and a non-positive maximum normalizes to 0. -/
theorem c8_normalization_safe_witness :
    (0 ≤ normalizeBy (pyMax ((denseDocsDict [("A", 2), ("B", 0)]).map Prod.snd) 1) 2 ∧
      normalizeBy (pyMax ((denseDocsDict [("A", (2 : ℚ)), ("B", 0)]).map Prod.snd) 1) 2 ≤ 1) ∧
    normalizeBy 0 5 = 0 := by
  constructor
  · exact c8_normalization_safe.1 [("A", 2), ("B", 0)] (by decide) ("A", 2) (by decide)
  · exact c8_normalization_safe.2.2 0 5 (by decide)

end DocMind
